import Mathlib

/-!
Verification development for the NeuroSync player core
(files `utils/generated_runners.py`, `chat_receiver.py`, `wave_to_face_api.py`).

The pure data path (validation, emotion blending, encoding) is embedded as
Lean functions over lists of rational channel values.  The concurrent playback
path (`run_prepared_animation`, `run_audio_animation`, the default-animation
idle loop and the per-request runner threads spawned by the HTTP layer) is
embedded as a small-step interleaving semantics over explicit thread states;
a schedule is a list of thread identifiers, and `run` folds the step function
over a schedule.

Collaborator code that lives outside the three source files
(`livelink.animations.animation_emotion`, `livelink.send_to_unreal`,
`livelink.connect.livelink_init`, `utils.audio.play_audio`) is modelled from
the specification; each such definition carries a doc comment saying so.
-/

set_option maxRecDepth 4000

namespace NeuroSync

/-! ### Data model -/

/-- One facial frame: an ordered list of channel values. -/
abbrev Frame := List ℚ

/-- A facial sequence: an ordered list of frames. -/
abbrev FacialSeq := List Frame

/-- Outcome of the input validation at the top of
`prepare_facial_data_for_animation` and `run_audio_animation`.
`crash` marks an evaluation that would index a frame that does not exist;
the theorems show it is unreachable. -/
inductive VResult where
  | sentinel
  | crash
  | accepted (d : FacialSeq)
  deriving Repr, DecidableEq

/-- Embedding of the Python validation
`generated_facial_data is not None and len(generated_facial_data) > 0 and
len(generated_facial_data[0]) > 61`, with the short-circuit evaluation order
made explicit: the null check, then the length check, then the indexing of
the first frame. -/
def pyValidate (x : Option FacialSeq) : VResult :=
  match x with
  | none => .sentinel
  | some l =>
    if 0 < l.length then
      match l.head? with
      | none => .crash
      | some f => if 61 < f.length then .accepted l else .sentinel
    else .sentinel

/-- The condition the source validation actually tests: the sequence is
present, non-empty, and its FIRST frame has more than 61 channels.  Used to
state the amended form of the acceptance claim. -/
def firstFrameOK : Option FacialSeq → Bool
  | none => false
  | some [] => false
  | some (f :: _) => decide (61 < f.length)

/-- Modelled from the spec (section 4.2 step 3): one blended frame, each
output channel value is `alpha * gesture + (1 - alpha) * generated` with
`alpha = 0.7`.  The underlying function
`merge_emotion_data_into_facial_data_wrapper` lives in
`livelink/animations/animation_emotion.py`, which is not under `src/`. -/
def blendFrame (g f : Frame) : Frame :=
  List.zipWith (fun a b => (7 / 10 : ℚ) * a + (3 / 10 : ℚ) * b) g f

/-- Modelled from the spec (section 4.2 step 3): crossfade the gesture clip
into the start of the generated sequence.  The third argument is the blend
window (the source passes `blend_frame_count=32`); blending truncates at the
gesture length and at the generated length. -/
def mergeEmotion : FacialSeq → FacialSeq → Nat → FacialSeq
  | f :: gen, g :: gst, n + 1 => blendFrame g f :: mergeEmotion gen gst n
  | gen, _, _ => gen

/-- A transport-ready encoded frame. -/
structure EncodedFrame where
  vals : Frame
  deriving Repr, DecidableEq

/-- Abstract per-context calibration state of one PyFace encoding context. -/
abbrev CtxState := Nat

/-- The store of all allocated encoding contexts; a context is an index. -/
abbrev CtxStore := List CtxState

/-- Modelled from the spec: `initialize_py_face` (in
`livelink/connect/livelink_init.py`, not under `src/`) creates a fresh
encoding context.  Allocation appends a new context to the store and returns
its index, so a freshly created context is distinct from every existing one. -/
def initialize_py_face (store : CtxStore) : Nat × CtxStore :=
  (store.length, store ++ [0])

/-- Modelled from the spec (section 4.3): `pre_encode_facial_data` (in
`livelink/send_to_unreal.py`, not under `src/`) is a deterministic transform
producing one encoded frame per facial frame, resolving per-channel
calibration from the supplied context and updating only that context. -/
def pre_encode_facial_data (d : FacialSeq) (ctx : Nat) (store : CtxStore) :
    List EncodedFrame × CtxStore :=
  (d.map (fun f => ⟨(store.getD ctx 0 : ℚ) :: f⟩),
   store.set ctx (store.getD ctx 0 + d.length))

/-- Embedding of `prepare_facial_data_for_animation` in
`utils/generated_runners.py`.  The emotion classification and the random
gesture choice happen in collaborator code outside `src/`, so the selected
gesture clip is abstracted into the `gsel` argument (`none` models the case
where the gesture library holds no clip for the dominant emotion).  The
encoding-context store is threaded explicitly. -/
def prepare_facial_data_for_animation (x : Option FacialSeq)
    (gsel : Option FacialSeq) (store : CtxStore) :
    Option (List EncodedFrame) × CtxStore :=
  match pyValidate x with
  | .accepted d =>
      let d2 := match gsel with
        | some g => mergeEmotion d g 32
        | none => d
      let p := initialize_py_face store
      let q := pre_encode_facial_data d2 p.1 p.2
      (some q.1, q.2)
  | _ => (none, store)

/-! ### Concurrency model

Small-step interleaving semantics for the playback path.  A thread executes a
`Code`; the idle loop is the dedicated `Code.idleLoop` node, which at each
step either observes the (level-triggered) stop flag and terminates, or emits
one frame to the rendering transport and loops.  Frame emission to the
transport is modelled in two phases (`beginWrite` / `endWrite`) so that
"two producers writing the transport at the same instant" is expressible as
two threads being between the phases simultaneously. -/

/-- Thread identifier: index into the thread list of a `Sys`. -/
abbrev TId := Nat

/-- The primitive actions of the embedded playback code. -/
inductive Instr where
  | acquire
  | release
  | setStop
  | clearStop
  | joinIfAlive (h : TId)
  | newEvent
  | spawnAudio
  | spawnData (frames : Nat)
  | setEvent
  | joinAudio
  | joinData
  | spawnIdle
  | waitEvent (e : Nat)
  | beginWrite
  | endWrite
  | beginAudioOut
  | endAudioOut
  deriving Repr, DecidableEq

def isSetStop : Instr → Bool
  | .setStop => true
  | _ => false

def isClearStop : Instr → Bool
  | .clearStop => true
  | _ => false

def isSpawnAudio : Instr → Bool
  | .spawnAudio => true
  | _ => false

def isSpawnData : Instr → Bool
  | .spawnData _ => true
  | _ => false

def isSetEvent : Instr → Bool
  | .setEvent => true
  | _ => false

def isJoinAudio : Instr → Bool
  | .joinAudio => true
  | _ => false

def isJoinData : Instr → Bool
  | .joinData => true
  | _ => false

def isSpawnIdle : Instr → Bool
  | .spawnIdle => true
  | _ => false

/-- Thread code: a finite instruction sequence, or the idle loop
(`default_animation_loop`), which re-checks the stop flag each cycle. -/
inductive Code where
  | nil
  | cons (i : Instr) (k : Code)
  | idleLoop
  deriving Repr, DecidableEq

def Code.ofList : List Instr → Code
  | [] => .nil
  | i :: l => .cons i (Code.ofList l)

def Code.isNil : Code → Bool
  | .nil => true
  | _ => false

/-- All suffixes of a code, i.e. the control points a thread running it can
be at. -/
def codeSuffixes : Code → List Code
  | .nil => [.nil]
  | .idleLoop => [.idleLoop]
  | .cons i k => .cons i k :: codeSuffixes k

/-- True when the code contains no instruction that mutates the idle-loop
stop flag. -/
def stopFreeC : Code → Bool
  | .nil => true
  | .idleLoop => true
  | .cons i k => !isSetStop i && !isClearStop i && stopFreeC k

/-- True when the code still contains a `joinIfAlive` on the given handle. -/
def codeHasJoin : Code → TId → Bool
  | .cons (.joinIfAlive h) k, t => h == t || codeHasJoin k t
  | .cons _ k, t => codeHasJoin k t
  | _, _ => false

/-- True when the code still contains a `clearStop` (the resume step of the
playback state machine has not happened yet). -/
def codeHasClear : Code → Bool
  | .cons i k => isClearStop i || codeHasClear k
  | _ => false

/-- Per-thread state.  `myEvent`, `myAudio`, `myData` and `localIdle` model
the function-local Python variables `start_event`, `audio_thread`,
`data_thread` and the local rebinding of `default_animation_thread`. -/
structure ThreadC where
  code : Code
  writing : Bool := false
  audioOut : Bool := false
  myEvent : Option Nat := none
  myAudio : Option TId := none
  myData : Option TId := none
  localIdle : Option TId := none
  deriving Repr, DecidableEq

/-- Global system state.  `globalIdle` models the module-level
`default_animation_thread` variable of the HTTP layer, which is assigned in
`initialize_animation_system` and is the value passed to every
`run_prepared_animation` call; no instruction of the runner mutates it,
because the assignment on line 118 of `utils/generated_runners.py` rebinds a
function-local name only. -/
structure Sys where
  threads : List ThreadC
  lockHolder : Option TId := none
  stop : Bool := false
  events : List Bool := []
  globalIdle : TId := 0
  deriving Repr, DecidableEq

/-- A thread is alive when it exists and its code is not exhausted
(`Thread.is_alive`). -/
def Sys.alive (s : Sys) (t : TId) : Bool :=
  match s.threads[t]? with
  | some th => !th.code.isNil
  | none => false

/-- Modelled from the spec: the frame-emission collaborator
`send_pre_encoded_data_to_unreal` (in `livelink/send_to_unreal.py`, not under
`src/`) blocks on the start barrier and then emits the encoded frames to the
transport. -/
def writesCode : Nat → Code
  | 0 => .nil
  | n + 1 => .cons .beginWrite (.cons .endWrite (writesCode n))

def dataCode (evt : Nat) (frames : Nat) : Code :=
  .cons (.waitEvent evt) (writesCode frames)

/-- Modelled from the spec: the audio-emission collaborator (in
`utils/audio/play_audio.py`, not under `src/`) blocks on the start barrier
and then plays the audio payload on the audio device. -/
def audioCode (evt : Nat) : Code :=
  .cons (.waitEvent evt) (.cons .beginAudioOut (.cons .endAudioOut .nil))

def setThread (s : Sys) (t : TId) (th : ThreadC) : Sys :=
  { s with threads := s.threads.set t th }

/-- One step of thread `t` whose current state is `th`.  Blocking primitives
(`acquire` on a held lock, joins on live threads, `waitEvent` on a cleared
event) leave the system unchanged. -/
def stepThread (s : Sys) (t : TId) (th : ThreadC) : Sys :=
  match th.code with
  | .nil => s
  | .idleLoop =>
      if s.stop then setThread s t { th with code := .nil }
      else setThread s t
        { th with code := .cons .beginWrite (.cons .endWrite .idleLoop) }
  | .cons i k =>
    match i with
    | .acquire =>
        if s.lockHolder = none then
          { setThread s t { th with code := k } with lockHolder := some t }
        else s
    | .release =>
        { setThread s t { th with code := k } with lockHolder := none }
    | .setStop =>
        { setThread s t { th with code := k } with stop := true }
    | .clearStop =>
        { setThread s t { th with code := k } with stop := false }
    | .joinIfAlive h =>
        if s.alive h then s else setThread s t { th with code := k }
    | .newEvent =>
        { setThread s t { th with code := k, myEvent := some s.events.length }
          with events := s.events ++ [false] }
    | .spawnAudio =>
        let s1 := setThread s t
          { th with code := k, myAudio := some s.threads.length }
        { s1 with threads := s1.threads ++ [{ code := audioCode (th.myEvent.getD 0) }] }
    | .spawnData n =>
        let s1 := setThread s t
          { th with code := k, myData := some s.threads.length }
        { s1 with threads := s1.threads ++ [{ code := dataCode (th.myEvent.getD 0) n }] }
    | .setEvent =>
        { setThread s t { th with code := k }
          with events := s.events.set (th.myEvent.getD 0) true }
    | .joinAudio =>
        match th.myAudio with
        | some a => if s.alive a then s else setThread s t { th with code := k }
        | none => setThread s t { th with code := k }
    | .joinData =>
        match th.myData with
        | some a => if s.alive a then s else setThread s t { th with code := k }
        | none => setThread s t { th with code := k }
    | .spawnIdle =>
        let s1 := setThread s t
          { th with code := k, localIdle := some s.threads.length }
        { s1 with threads := s1.threads ++ [{ code := Code.idleLoop }] }
    | .waitEvent e =>
        if s.events.getD e false then setThread s t { th with code := k } else s
    | .beginWrite => setThread s t { th with code := k, writing := true }
    | .endWrite => setThread s t { th with code := k, writing := false }
    | .beginAudioOut => setThread s t { th with code := k, audioOut := true }
    | .endAudioOut => setThread s t { th with code := k, audioOut := false }

def step (s : Sys) (t : TId) : Sys :=
  match s.threads[t]? with
  | none => s
  | some th => stepThread s t th

/-- Run a schedule: execute one step per listed thread id, in order. -/
def run (s : Sys) (sched : List TId) : Sys :=
  sched.foldl step s

/-- Embedding of the body of `run_prepared_animation`
(`utils/generated_runners.py` lines 99-119): under the lock, raise the stop
flag and join the passed idle-thread handle; create the start event; spawn
and start the frame-emission thread (the audio thread of this function is
commented out in the source); release the barrier once; join the emission
thread; then, under the lock again, clear the stop flag and spawn a fresh
idle thread, binding it to a local variable only. -/
def runPreparedList (hdl : TId) (frames : Nat) : List Instr :=
  [.acquire, .setStop, .joinIfAlive hdl, .release,
   .newEvent, .spawnData frames, .setEvent, .joinData,
   .acquire, .clearStop, .spawnIdle, .release]

/-- Embedding of the streaming part of `run_audio_animation`
(`utils/generated_runners.py` lines 159-180): same shape, but with both the
audio thread and the frame-emission thread spawned before the single barrier
release, and both joined before the idle loop is resumed. -/
def runAudioList (hdl : TId) (frames : Nat) : List Instr :=
  [.acquire, .setStop, .joinIfAlive hdl, .release,
   .newEvent, .spawnAudio, .spawnData frames, .setEvent, .joinAudio, .joinData,
   .acquire, .clearStop, .spawnIdle, .release]

/-- Embedding of `run_encoded_audio_animation`
(`utils/generated_runners.py` lines 27-38): spawns both emission threads and
releases the barrier, with no idle-loop management at all. -/
def runEncodedList (frames : Nat) : List Instr :=
  [.newEvent, .spawnAudio, .spawnData frames, .setEvent, .joinAudio, .joinData]

def runnerCode (n : Nat) : Code := Code.ofList (runPreparedList 0 n)

/-- The control point of the runner right after `clearStop`: the next step
spawns the resumed idle loop. -/
def resumeTail : Code := .cons .spawnIdle (.cons .release .nil)

def idleThread : ThreadC := { code := Code.idleLoop }

def runnerThread (c : List Instr) : ThreadC := { code := Code.ofList c }

/-- System at startup of the HTTP layer plus one pending
`run_prepared_animation` call: thread 0 is the initial idle loop (the value
of the global handle), thread 1 the runner, called with the global handle. -/
def initOneCall (frames : Nat) : Sys :=
  { threads := [idleThread, runnerThread (runPreparedList 0 frames)],
    globalIdle := 0 }

/-- System with two pending `run_prepared_animation` calls (two
`/process-audio` requests): both runner threads received the same global
idle handle 0, exactly as `chat_receiver.py` passes
`default_animation_thread` to each background animation thread. -/
def initTwoCalls (frames : Nat) : Sys :=
  { threads := [idleThread,
                runnerThread (runPreparedList 0 frames),
                runnerThread (runPreparedList 0 frames)],
    globalIdle := 0 }

/-- Number of threads currently between `beginWrite` and `endWrite`, i.e.
writing the rendering transport at this instant. -/
def writingCount (s : Sys) : Nat :=
  (s.threads.filter (fun th => th.writing)).length

/-- Lock-bracketing check: scans an instruction list tracking the
acquire/release balance and requires every stop-flag mutation, every
idle-handle join and every idle spawn to happen at positive depth. -/
def guardCheck : List Instr → Nat → Bool
  | [], _ => true
  | i :: l, d =>
    match i with
    | .acquire => guardCheck l (d + 1)
    | .release => decide (0 < d) && guardCheck l (d - 1)
    | .setStop => decide (0 < d) && guardCheck l d
    | .clearStop => decide (0 < d) && guardCheck l d
    | .joinIfAlive _ => decide (0 < d) && guardCheck l d
    | .spawnIdle => decide (0 < d) && guardCheck l d
    | _ => guardCheck l d

/-- Embedding of `run_audio_animation` (`utils/generated_runners.py` lines
136-180) as a whole: the validation gates ONLY the emotion-blending block;
encoding and the streaming program are produced unconditionally.  Returns
the streaming instruction list, the encoded frames and the context store. -/
def run_audio_animation (x : FacialSeq) (gsel : Option FacialSeq)
    (hdl : TId) (store : CtxStore) :
    List Instr × List EncodedFrame × CtxStore :=
  let d :=
    if 0 < x.length ∧ 61 < (x.headD []).length then
      match gsel with
      | some g => mergeEmotion x g 32
      | none => x
    else x
  let p := initialize_py_face store
  let q := pre_encode_facial_data d p.1 p.2
  (runAudioList hdl q.1.length, q.1, q.2)

/-- Embedding of `run_audio_animation_from_bytes`
(`utils/generated_runners.py` lines 121-133): prepare first; only when
preparation succeeds is `run_prepared_animation` invoked, so a rejected
input produces no instructions at all. -/
def run_audio_animation_from_bytes (x : Option FacialSeq)
    (gsel : Option FacialSeq) (hdl : TId) (store : CtxStore) :
    List Instr × Option (List EncodedFrame) × CtxStore :=
  match prepare_facial_data_for_animation x gsel store with
  | (some enc, store2) => (runPreparedList hdl enc.length, some enc, store2)
  | (none, store2) => ([], none, store2)

/-! ### Concrete schedules used in the theorems -/

/-- Call A runs to completion: idle thread 0 observes the stop flag and
exits, the frame thread (tid 3) streams one frame, the runner resumes the
idle loop as the fresh thread 4 bound only to its local variable. -/
def schedAFull : List TId :=
  [1, 1, 0, 1, 1, 1, 1, 1, 3, 3, 3, 1, 1, 1, 1, 1]

/-- After `schedAFull`: the resumed idle thread 4 starts a transport write,
then call B runs its whole handoff against the stale handle 0 and its frame
thread (tid 5) starts writing too. -/
def schedIdleClash : List TId :=
  schedAFull ++ [4, 4, 2, 2, 2, 2, 2, 2, 2, 5, 5]

/-- Call A streams (frame thread 3 mid-write), then call B passes the guard
(the stale handle 0 is already dead), spawns frame thread 4 and starts
writing while A is still streaming. -/
def schedOverlap : List TId :=
  [1, 1, 0, 1, 1, 1, 1, 1, 3, 3,
   2, 2, 2, 2, 2, 2, 2, 4, 4]

/-- Call A suspends the idle loop, then call B overtakes it completely:
B spawns frame thread 3 and streams, then A spawns frame thread 4 and
streams; neither has reached its resume step. -/
def schedBFirst : List TId :=
  [1, 1, 0, 1, 1,
   2, 2, 2, 2, 2, 2, 2, 3, 3,
   1, 1, 1, 4, 4]

/-- Single call driven up to the point right after `clearStop`: the runner
control point is `resumeTail` and the next step spawns the resumed idle
loop. -/
def schedResume : List TId :=
  [1, 1, 0, 1, 1, 1, 1, 1, 2, 2, 2, 1, 1, 1]

/-- Invariant for the single-invocation system `initOneCall n`: every thread
other than the runner (thread 1) runs stop-flag-free code, the runner is
always at a control point of its own program, and whenever the runner is at
the control point `resumeTail` (right after `clearStop`, about to spawn the
resumed idle loop) the stop flag is cleared. -/
def C8Inv (n : Nat) (s : Sys) : Prop :=
  (∀ j, j ≠ 1 → ∀ tj : ThreadC, s.threads[j]? = some tj → stopFreeC tj.code = true)
  ∧ (∃ th : ThreadC, s.threads[1]? = some th ∧ th.code ∈ codeSuffixes (runnerCode n))
  ∧ (∀ th : ThreadC, s.threads[1]? = some th → th.code = resumeTail → s.stop = false)

/-- Concrete generated sequence used in the blend witness. -/
def genW : FacialSeq := [[1, 2], [3, 4]]

/-- Concrete gesture clip used in the blend witness. -/
def gstW : FacialSeq := [[5, 6]]

/-! ### Helper lemmas -/

theorem pyValidate_small (l : FacialSeq) (h : ∀ f ∈ l, f.length ≤ 61) :
    pyValidate (some l) = .sentinel := by
  cases l with
  | nil => rfl
  | cons f t =>
      have hf : ¬ 61 < f.length := by
        have := h f (by simp)
        omega
      simp [pyValidate, hf]

theorem mergeEmotion_length (gen gst : FacialSeq) (n : Nat) :
    (mergeEmotion gen gst n).length = gen.length := by
  induction gen generalizing gst n with
  | nil => simp [mergeEmotion]
  | cons f gen ih =>
      cases n with
      | zero => simp [mergeEmotion]
      | succ n =>
          cases gst with
          | nil => simp [mergeEmotion]
          | cons g gst => simp [mergeEmotion, ih]

theorem mergeEmotion_get_lt (gen gst : FacialSeq) (n i : Nat)
    (h : i < min n (min gst.length gen.length)) :
    ∃ f g, gen[i]? = some f ∧ gst[i]? = some g ∧
      (mergeEmotion gen gst n)[i]? = some (blendFrame g f) := by
  induction gen generalizing gst n i with
  | nil => simp [Nat.lt_min] at h
  | cons f gen ih =>
      cases n with
      | zero => simp [Nat.lt_min] at h
      | succ n =>
          cases gst with
          | nil => simp [Nat.lt_min] at h
          | cons g gst =>
              cases i with
              | zero => exact ⟨f, g, by simp, by simp, by simp [mergeEmotion]⟩
              | succ i =>
                  have h2 : i < min n (min gst.length gen.length) := by
                    simp [Nat.lt_min] at h ⊢
                    omega
                  obtain ⟨f2, g2, e1, e2, e3⟩ := ih gst n i h2
                  exact ⟨f2, g2, by simpa using e1, by simpa using e2,
                    by simpa [mergeEmotion] using e3⟩

theorem mergeEmotion_get_ge (gen gst : FacialSeq) (n i : Nat)
    (h : min n (min gst.length gen.length) ≤ i) :
    (mergeEmotion gen gst n)[i]? = gen[i]? := by
  induction gen generalizing gst n i with
  | nil => simp [mergeEmotion]
  | cons f gen ih =>
      cases n with
      | zero => simp [mergeEmotion]
      | succ n =>
          cases gst with
          | nil => simp [mergeEmotion]
          | cons g gst =>
              rw [List.length_cons, List.length_cons, Nat.succ_min_succ,
                Nat.succ_min_succ] at h
              cases i with
              | zero => omega
              | succ i =>
                  have h2 : min n (min gst.length gen.length) ≤ i := by omega
                  simpa [mergeEmotion] using ih gst n i h2

theorem blendFrame_get (g f : Frame) (c : Nat) (h : c < min g.length f.length) :
    (blendFrame g f)[c]? =
      some ((7 / 10 : ℚ) * g.getD c 0 + (3 / 10 : ℚ) * f.getD c 0) := by
  induction g generalizing f c with
  | nil => simp [Nat.lt_min] at h
  | cons a g ih =>
      cases f with
      | nil => simp [Nat.lt_min] at h
      | cons b f =>
          cases c with
          | zero => simp [blendFrame]
          | succ c =>
              have h2 : c < min g.length f.length := by
                simp [Nat.lt_min] at h ⊢
                omega
              simpa [blendFrame, List.zipWith_cons_cons] using ih f c h2

theorem stepThread_globalIdle (s : Sys) (t : TId) (th : ThreadC) :
    (stepThread s t th).globalIdle = s.globalIdle := by
  unfold stepThread
  split
  · rfl
  · split <;> rfl
  · split <;> first
      | rfl
      | (split <;> rfl)
      | (split <;> first | rfl | (split <;> rfl))

theorem step_globalIdle (s : Sys) (t : TId) :
    (step s t).globalIdle = s.globalIdle := by
  unfold step
  split
  · rfl
  · exact stepThread_globalIdle _ _ _

theorem run_globalIdle (sched : List TId) (s : Sys) :
    (run s sched).globalIdle = s.globalIdle := by
  induction sched generalizing s with
  | nil => rfl
  | cons t sched ih =>
      show (run (step s t) sched).globalIdle = s.globalIdle
      rw [ih (step s t), step_globalIdle]

/-! ### Claim C3 -/

/-- C3 counterexample: a sequence whose first frame has 62 channels but whose
second frame has only 5 channels is ACCEPTED by
`prepare_facial_data_for_animation`, although it contains a frame with 61 or
fewer channels; the claimed acceptance condition (every frame above 61
channels) is therefore not the one the code implements. -/
theorem c3_counterexample :
    (prepare_facial_data_for_animation
        (some [List.replicate 62 (0 : ℚ), List.replicate 5 0]) none []).1.isSome = true
    ∧ ([List.replicate 62 (0 : ℚ), List.replicate 5 0].all
        (fun f => decide (61 < f.length))) = false := by
  exact ⟨rfl, rfl⟩

/-- C3 amended: `prepare_facial_data_for_animation` accepts a raw facial
sequence if and only if it is present, non-empty, and its FIRST frame has
strictly more than 61 channels; later frames are not inspected by the
validation. -/
theorem c3_accepts_iff_first_frame_ok (x : Option FacialSeq)
    (gsel : Option FacialSeq) (store : CtxStore) :
    (prepare_facial_data_for_animation x gsel store).1.isSome = firstFrameOK x := by
  cases x with
  | none => rfl
  | some l =>
      cases l with
      | nil => rfl
      | cons f t =>
          by_cases h : 61 < f.length
          · simp [prepare_facial_data_for_animation, pyValidate, firstFrameOK, h]
          · simp [prepare_facial_data_for_animation, pyValidate, firstFrameOK, h]

/-! ### Claim C6 -/

/-- C6: the validation of `prepare_facial_data_for_animation` is total and
cannot crash.  A missing (None) input, an empty sequence, and any sequence
all of whose frames have at most 61 channels are answered with the sentinel
outcome, and because the null check and the non-emptiness check are
evaluated before the first frame is indexed, the out-of-bounds marker
`VResult.crash` is unreachable for every input. -/
theorem c6_validation_total_and_safe :
    pyValidate none = .sentinel
    ∧ pyValidate (some []) = .sentinel
    ∧ (∀ l : FacialSeq, (∀ f ∈ l, f.length ≤ 61) → pyValidate (some l) = .sentinel)
    ∧ (∀ x : Option FacialSeq, pyValidate x ≠ .crash) := by
  refine ⟨rfl, rfl, fun l h => pyValidate_small l h, fun x => ?_⟩
  match x with
  | none => simp [pyValidate]
  | some [] => simp [pyValidate]
  | some (f :: t) =>
      by_cases h : 61 < f.length <;> simp [pyValidate, h]

/-- Witness for C6 at concrete inputs. -/
theorem c6_validation_total_and_safe_witness :
    ((∀ f ∈ ([[(0 : ℚ)]] : FacialSeq), f.length ≤ 61)
      ∧ pyValidate (some [[(0 : ℚ)]]) = .sentinel)
    ∧ pyValidate (some [List.replicate 62 (0 : ℚ)]) ≠ .crash :=
  ⟨⟨by decide, c6_validation_total_and_safe.2.2.1 _ (by decide)⟩,
   c6_validation_total_and_safe.2.2.2 _⟩

/-! ### Claim C7 -/

/-- C7: when a gesture clip is selected, the blended sequence has exactly the
frame count of the generated input; for every frame index below
`min 32 (min gestureLength generatedLength)` each output channel value is
exactly `0.7 * gesture + 0.3 * generated`, and every frame at or beyond that
bound is the generated frame unmodified. -/
theorem c7_blend_correct (gen gst : FacialSeq) :
    (mergeEmotion gen gst 32).length = gen.length
    ∧ (∀ i, i < min 32 (min gst.length gen.length) →
        ∃ f g, gen[i]? = some f ∧ gst[i]? = some g ∧
          (mergeEmotion gen gst 32)[i]? = some (blendFrame g f) ∧
          ∀ c, c < min g.length f.length →
            (blendFrame g f)[c]? =
              some ((7 / 10 : ℚ) * g.getD c 0 + (3 / 10 : ℚ) * f.getD c 0))
    ∧ (∀ i, min 32 (min gst.length gen.length) ≤ i →
        (mergeEmotion gen gst 32)[i]? = gen[i]?) := by
  refine ⟨mergeEmotion_length gen gst 32, fun i h => ?_,
    fun i h => mergeEmotion_get_ge gen gst 32 i h⟩
  obtain ⟨f, g, e1, e2, e3⟩ := mergeEmotion_get_lt gen gst 32 i h
  exact ⟨f, g, e1, e2, e3, fun c hc => blendFrame_get g f c hc⟩

/-- Witness for C7 at a concrete generated sequence and gesture clip. -/
theorem c7_blend_correct_witness :
    0 < min 32 (min gstW.length genW.length)
    ∧ (∃ f g, genW[0]? = some f ∧ gstW[0]? = some g ∧
        (mergeEmotion genW gstW 32)[0]? = some (blendFrame g f) ∧
        ∀ c, c < min g.length f.length →
          (blendFrame g f)[c]? =
            some ((7 / 10 : ℚ) * g.getD c 0 + (3 / 10 : ℚ) * f.getD c 0)) :=
  ⟨by decide, (c7_blend_correct genW gstW).2.1 0 (by decide)⟩

/-! ### Claim C5 -/

/-- C5 counterexample: called directly with a sequence all of whose frames
have at most 61 channels, `run_audio_animation` still spawns the audio unit
and the frame-emission unit (the failed validation only skips the emotion
blending), so the cited pipeline does NOT suppress emission on invalid
input. -/
theorem c5_counterexample :
    (run_audio_animation [List.replicate 10 (0 : ℚ)] none 0 []).1.countP isSpawnAudio = 1
    ∧ (run_audio_animation [List.replicate 10 (0 : ℚ)] none 0 []).1.countP isSpawnData = 1
    ∧ ([List.replicate 10 (0 : ℚ)].all (fun f => decide (f.length ≤ 61))) = true := by
  exact ⟨rfl, rfl, rfl⟩

/-- C5 amended: on the prepare-then-run path
(`run_audio_animation_from_bytes`), every sequence all of whose frames have
at most 61 channels yields the sentinel and produces no playback
instructions at all: nothing is spawned and nothing is written to the
transport.  (`run_audio_animation`, by contrast, still encodes and emits, as
the counterexample shows.) -/
theorem c5_prepare_path_no_emission (x : FacialSeq) (gsel : Option FacialSeq)
    (hdl : TId) (store : CtxStore) (h : ∀ f ∈ x, f.length ≤ 61) :
    run_audio_animation_from_bytes (some x) gsel hdl store = ([], none, store) := by
  simp [run_audio_animation_from_bytes, prepare_facial_data_for_animation,
    pyValidate_small x h]

/-- Witness for C5 at a concrete invalid sequence. -/
theorem c5_prepare_path_no_emission_witness :
    (∀ f ∈ ([[(0 : ℚ)]] : FacialSeq), f.length ≤ 61)
    ∧ run_audio_animation_from_bytes (some [[(0 : ℚ)]]) none 0 [] = ([], none, []) :=
  ⟨by decide, c5_prepare_path_no_emission [[(0 : ℚ)]] none 0 [] (by decide)⟩

/-! ### Claim C9 -/

/-- C9: preparation always encodes against a freshly allocated encoding
context.  The fresh context is never the index of the context backing the
idle loop, preparation leaves the idle-loop context entry of the store
untouched, and the prepared output is independent of the idle-loop context
state. -/
theorem c9_fresh_encoding_context (x : Option FacialSeq) (gsel : Option FacialSeq)
    (store : CtxStore) (idleCtx : Nat) (v : CtxState) (h : idleCtx < store.length) :
    (prepare_facial_data_for_animation x gsel store).2[idleCtx]? = store[idleCtx]?
    ∧ (prepare_facial_data_for_animation x gsel (store.set idleCtx v)).1
        = (prepare_facial_data_for_animation x gsel store).1
    ∧ (initialize_py_face store).1 ≠ idleCtx := by
  have hne : store.length ≠ idleCtx := by omega
  refine ⟨?_, ?_, hne⟩
  · cases hv : pyValidate x with
    | sentinel => simp [prepare_facial_data_for_animation, hv]
    | crash => simp [prepare_facial_data_for_animation, hv]
    | accepted d =>
        simp only [prepare_facial_data_for_animation, hv, initialize_py_face,
          pre_encode_facial_data]
        rw [List.getElem?_set_ne hne, List.getElem?_append_left h]
  · cases hv : pyValidate x with
    | sentinel => simp [prepare_facial_data_for_animation, hv]
    | crash => simp [prepare_facial_data_for_animation, hv]
    | accepted d =>
        simp only [prepare_facial_data_for_animation, hv, initialize_py_face,
          pre_encode_facial_data, List.length_set]
        have e1 : (store.set idleCtx v ++ [0]).getD store.length 0 = 0 := by
          rw [List.getD_eq_getElem?_getD]
          rw [show store.length = (store.set idleCtx v).length from
            (List.length_set store idleCtx v).symm]
          rw [List.getElem?_concat_length]
          rfl
        have e2 : (store ++ [0]).getD store.length 0 = 0 := by
          rw [List.getD_eq_getElem?_getD, List.getElem?_concat_length]
          rfl
        rw [e1, e2]

/-! ### Claim C10 -/

/-- C10: across every schedule of two playback calls, the global idle-thread
handle of the caller keeps referring to thread 0; after call A has completed
(`schedAFull`), the thread the global handle refers to is no longer alive,
the freshly spawned idle loop (thread 4) is recorded only in the runner's
local variable yet is the idle thread actually running, and the pending
second call still holds a `joinIfAlive` on the stale handle 0. -/
theorem c10_stale_idle_handle :
    (∀ sched : List TId, (run (initTwoCalls 1) sched).globalIdle = 0)
    ∧ (run (initTwoCalls 1) schedAFull).alive
        (run (initTwoCalls 1) schedAFull).globalIdle = false
    ∧ ((run (initTwoCalls 1) schedAFull).threads[1]?).map (fun th => th.localIdle)
        = some (some 4)
    ∧ (run (initTwoCalls 1) schedAFull).alive 4 = true
    ∧ ((run (initTwoCalls 1) schedAFull).threads[2]?).map
        (fun th => codeHasJoin th.code 0) = some true := by
  exact ⟨fun sched => run_globalIdle sched (initTwoCalls 1), rfl, rfl, rfl, rfl⟩

/-! ### Claim C1 -/

/-- C1 is violated by the code: under `schedOverlap` the frame-emission
units of two overlapping calls (threads 3 and 4) are writing the rendering
transport at the same instant, and under `schedIdleClash` the idle loop
resumed by the first call (thread 4, mid-cycle in its write phase) and the
second call's frame-emission unit (thread 5) are writing at the same
instant, because the second call joins the stale handle 0 instead of the
running idle thread. -/
theorem c1_two_producers_write_concurrently :
    writingCount (run (initTwoCalls 1) schedOverlap) = 2
    ∧ ((run (initTwoCalls 1) schedOverlap).threads[3]?).map (fun th => th.writing)
        = some true
    ∧ ((run (initTwoCalls 1) schedOverlap).threads[4]?).map (fun th => th.writing)
        = some true
    ∧ writingCount (run (initTwoCalls 1) schedIdleClash) = 2
    ∧ ((run (initTwoCalls 1) schedIdleClash).threads[4]?).map (fun th => th.code)
        = some (.cons .endWrite .idleLoop)
    ∧ ((run (initTwoCalls 1) schedIdleClash).threads[4]?).map (fun th => th.writing)
        = some true
    ∧ ((run (initTwoCalls 1) schedIdleClash).threads[5]?).map (fun th => th.writing)
        = some true := by
  exact ⟨rfl, rfl, rfl, rfl, rfl, rfl, rfl⟩

/-! ### Claim C2 -/

/-- C2 counterexample: under `schedOverlap` the second call has fully passed
its idle-loop handoff (its `joinIfAlive` on the stale handle is gone) and
its frame-emission unit (thread 4) is already writing the transport, while
the first call has not yet reached its resume step (its `clearStop` is still
pending) — so a `play()` arriving during Streaming does NOT block until the
prior session reaches Resuming. -/
theorem c2_counterexample :
    ((run (initTwoCalls 1) schedOverlap).threads[4]?).map (fun th => th.writing)
        = some true
    ∧ ((run (initTwoCalls 1) schedOverlap).threads[2]?).map
        (fun th => codeHasJoin th.code 0) = some false
    ∧ ((run (initTwoCalls 1) schedOverlap).threads[1]?).map
        (fun th => codeHasClear th.code) = some true := by
  exact ⟨rfl, rfl, rfl⟩

/-- C2 amended: a `play()` invoked while a previous `play()` is Streaming is
not serialized behind it.  The mutual-exclusion guard is free during
Streaming, so the new invocation completes its entire idle-loop handoff and
streams concurrently: under `schedBFirst` both sessions' frame emitters
(threads 3 and 4) write the transport at the same instant while neither
invocation has reached its resume step. -/
theorem c2_overlapping_sessions_stream_concurrently :
    writingCount (run (initTwoCalls 1) schedBFirst) = 2
    ∧ ((run (initTwoCalls 1) schedBFirst).threads[3]?).map (fun th => th.writing)
        = some true
    ∧ ((run (initTwoCalls 1) schedBFirst).threads[4]?).map (fun th => th.writing)
        = some true
    ∧ ((run (initTwoCalls 1) schedBFirst).threads[1]?).map
        (fun th => codeHasClear th.code) = some true
    ∧ ((run (initTwoCalls 1) schedBFirst).threads[2]?).map
        (fun th => codeHasClear th.code) = some true := by
  exact ⟨rfl, rfl, rfl, rfl, rfl⟩

/-! ### Claim C4 -/

/-- C4 counterexample: `run_prepared_animation` spawns NO audio-emission
unit (the audio thread is commented out in the source) and exactly one
frame-emission unit; a full single run of it creates exactly two new
threads in total — the frame emitter and the resumed idle loop — not two
session emission units. -/
theorem c4_counterexample :
    (∀ hdl n : Nat, (runPreparedList hdl n).countP isSpawnAudio = 0
      ∧ (runPreparedList hdl n).countP isSpawnData = 1)
    ∧ (run (initOneCall 1) (schedResume ++ [1, 1])).threads.length = 4
    ∧ ((run (initOneCall 1) (schedResume ++ [1, 1])).threads[1]?).map
        (fun th => th.code.isNil) = some true := by
  exact ⟨fun hdl n => ⟨rfl, rfl⟩, rfl, rfl⟩

/-- C4 amended: `run_audio_animation` spawns exactly two session execution
units — the audio emitter and the frame emitter, in that order — and
releases the single start barrier exactly once, after both spawns;
`run_prepared_animation` spawns only the frame emitter and likewise
releases its barrier exactly once, after the spawn.  A spawned unit whose
barrier is not yet released cannot take a step. -/
theorem c4_units_and_single_barrier_release :
    (∀ hdl n : Nat, (runAudioList hdl n).countP isSpawnAudio = 1
      ∧ (runAudioList hdl n).countP isSpawnData = 1
      ∧ (runAudioList hdl n).countP isSetEvent = 1
      ∧ (runAudioList hdl n)[5]? = some .spawnAudio
      ∧ (runAudioList hdl n)[6]? = some (.spawnData n)
      ∧ (runAudioList hdl n)[7]? = some .setEvent)
    ∧ (∀ hdl n : Nat, (runPreparedList hdl n).countP isSpawnAudio = 0
      ∧ (runPreparedList hdl n).countP isSpawnData = 1
      ∧ (runPreparedList hdl n).countP isSetEvent = 1
      ∧ (runPreparedList hdl n)[5]? = some (.spawnData n)
      ∧ (runPreparedList hdl n)[6]? = some .setEvent)
    ∧ (∀ (s : Sys) (t : TId) (e : Nat) (th : ThreadC) (k : Code),
        s.threads[t]? = some th → th.code = .cons (.waitEvent e) k →
        s.events.getD e false = false → step s t = s) := by
  refine ⟨fun hdl n => ⟨rfl, rfl, rfl, rfl, rfl, rfl⟩,
    fun hdl n => ⟨rfl, rfl, rfl, rfl, rfl⟩, ?_⟩
  intro s t e th k h1 h2 h3
  rw [List.getD_eq_getElem?_getD] at h3
  simp [step, h1, stepThread, h2, h3]

/-- Witness for C4: in the two-call system right after the first call has
spawned its frame-emission thread but before the barrier release, the
spawned unit (thread 3) is blocked: its step leaves the system unchanged. -/
theorem c4_units_and_single_barrier_release_witness :
    (run (initTwoCalls 1) [1, 1, 0, 1, 1, 1, 1]).threads[3]?
        = some { code := dataCode 0 1 }
    ∧ step (run (initTwoCalls 1) [1, 1, 0, 1, 1, 1, 1]) 3
        = run (initTwoCalls 1) [1, 1, 0, 1, 1, 1, 1] :=
  ⟨rfl, c4_units_and_single_barrier_release.2.2
    (run (initTwoCalls 1) [1, 1, 0, 1, 1, 1, 1]) 3 0
    { code := dataCode 0 1 } (writesCode 1) rfl rfl rfl⟩

/-! ### Claim C8: helper lemmas -/

theorem lt_of_getElem?_some {α : Type} {l : List α} {i : Nat} {a : α}
    (h : l[i]? = some a) : i < l.length := by
  by_contra hc
  rw [List.getElem?_eq_none (by omega)] at h
  simp at h

theorem getElem?_append_single {α : Type} (l : List α) (x : α) (j : Nat) :
    (l ++ [x])[j]? =
      if j < l.length then l[j]? else if j = l.length then some x else none := by
  by_cases h1 : j < l.length
  · rw [List.getElem?_append_left h1, if_pos h1]
  · rw [if_neg h1]
    by_cases h2 : j = l.length
    · subst h2
      rw [List.getElem?_concat_length, if_pos rfl]
    · rw [if_neg h2, List.getElem?_eq_none]
      rw [List.length_append]
      simp only [List.length_cons, List.length_nil]
      omega

theorem stopFreeC_writesCode (m : Nat) : stopFreeC (writesCode m) = true := by
  induction m with
  | zero => rfl
  | succ m ih => simp [writesCode, stopFreeC, isSetStop, isClearStop, ih]

theorem stopFreeC_dataCode (e m : Nat) : stopFreeC (dataCode e m) = true := by
  simp [dataCode, stopFreeC, isSetStop, isClearStop, stopFreeC_writesCode]

theorem stopFreeC_audioCode (e : Nat) : stopFreeC (audioCode e) = true := rfl

theorem codeSuffixes_self (c : Code) : c ∈ codeSuffixes c := by
  cases c <;> simp [codeSuffixes]

theorem codeSuffixes_tail {c : Code} {i : Instr} {k : Code}
    (h : Code.cons i k ∈ codeSuffixes c) : k ∈ codeSuffixes c := by
  induction c with
  | nil => simp [codeSuffixes] at h
  | idleLoop => simp [codeSuffixes] at h
  | cons j c ih =>
      simp only [codeSuffixes, List.mem_cons] at h ⊢
      rcases h with h | h
      · injection h with h1 h2
        subst h2
        exact Or.inr (codeSuffixes_self _)
      · exact Or.inr (ih h)

theorem ofList_no_idleLoop (l : List Instr) :
    Code.idleLoop ∉ codeSuffixes (Code.ofList l) := by
  induction l with
  | nil => simp [Code.ofList, codeSuffixes]
  | cons i l ih => simpa [Code.ofList, codeSuffixes] using ih

theorem suffix_resume_clearStop (n : Nat) (i : Instr) (k : Code)
    (hmem : Code.cons i k ∈ codeSuffixes (runnerCode n)) (hk : k = resumeTail) :
    i = Instr.clearStop := by
  subst hk
  simp [runnerCode, runPreparedList, Code.ofList, codeSuffixes, resumeTail] at hmem
  exact hmem

/-- Re-establishing `C8Inv` after a step of the runner thread that moves its
control point to `th2.code` and leaves, spawns, or updates the listed
fields. -/
theorem c8Inv_update (n : Nat) (s : Sys) (th th2 : ThreadC)
    (hth : s.threads[1]? = some th)
    (h1 : ∀ j, j ≠ 1 → ∀ tj : ThreadC, s.threads[j]? = some tj → stopFreeC tj.code = true)
    (hmem : th2.code ∈ codeSuffixes (runnerCode n))
    (stop2 : Bool) (lock2 : Option TId) (ev2 : List Bool)
    (hres : th2.code = resumeTail → stop2 = false)
    (spawned : Option ThreadC)
    (hsp : ∀ c0 : ThreadC, spawned = some c0 → stopFreeC c0.code = true) :
    C8Inv n { threads := (match spawned with
                | none => s.threads.set 1 th2
                | some c => s.threads.set 1 th2 ++ [c]),
              lockHolder := lock2, stop := stop2, events := ev2,
              globalIdle := s.globalIdle } := by
  have hlt : 1 < s.threads.length := lt_of_getElem?_some hth
  cases spawned with
  | none =>
      refine ⟨?_, ⟨th2, ?_, hmem⟩, ?_⟩
      · intro j hj tj htj
        rw [List.getElem?_set_ne (Ne.symm hj)] at htj
        exact h1 j hj tj htj
      · exact List.getElem?_set_eq_of_lt th2 hlt
      · intro th3 h3 hcode
        rw [List.getElem?_set_eq_of_lt th2 hlt] at h3
        exact hres ((Option.some.inj h3) ▸ hcode)
  | some c =>
      have hset1 : (s.threads.set 1 th2 ++ [c])[1]? = some th2 := by
        rw [List.getElem?_append_left (by rw [List.length_set]; omega)]
        exact List.getElem?_set_eq_of_lt th2 hlt
      refine ⟨?_, ⟨th2, hset1, hmem⟩, ?_⟩
      · intro j hj tj htj
        rw [getElem?_append_single] at htj
        split at htj
        · rw [List.getElem?_set_ne (Ne.symm hj)] at htj
          exact h1 j hj tj htj
        · split at htj
          · have : c = tj := Option.some.inj htj
            exact this ▸ hsp c rfl
          · cases htj
      · intro th3 h3 hcode
        rw [hset1] at h3
        exact hres ((Option.some.inj h3) ▸ hcode)

/-- Re-establishing `C8Inv` after a step of a thread other than the runner:
the stop flag is unchanged and the stepping thread stays stop-free. -/
theorem c8Inv_update_other (n : Nat) (s : Sys) (t : TId) (hne : t ≠ 1)
    (th2 : ThreadC) (hinv : C8Inv n s)
    (hsf2 : stopFreeC th2.code = true)
    (lock2 : Option TId) (ev2 : List Bool)
    (spawned : Option ThreadC)
    (hsp : ∀ c0 : ThreadC, spawned = some c0 → stopFreeC c0.code = true) :
    C8Inv n { threads := (match spawned with
                | none => s.threads.set t th2
                | some c => s.threads.set t th2 ++ [c]),
              lockHolder := lock2, stop := s.stop, events := ev2,
              globalIdle := s.globalIdle } := by
  obtain ⟨h1, ⟨thA, hA, hAmem⟩, h3⟩ := hinv
  have hlt1 : 1 < s.threads.length := lt_of_getElem?_some hA
  have hother : ∀ j, j ≠ 1 → ∀ tj : ThreadC,
      (s.threads.set t th2)[j]? = some tj → stopFreeC tj.code = true := by
    intro j hj tj htj
    by_cases hjt : j = t
    · subst hjt
      rw [List.getElem?_set] at htj
      split at htj
      · split at htj
        · exact (Option.some.inj htj) ▸ hsf2
        · cases htj
      · exact h1 j hj tj htj
    · rw [List.getElem?_set_ne (Ne.symm hjt)] at htj
      exact h1 j hj tj htj
  have hA' : (s.threads.set t th2)[1]? = some thA := by
    rw [List.getElem?_set_ne hne]
    exact hA
  cases spawned with
  | none =>
      refine ⟨hother, ⟨thA, hA', hAmem⟩, ?_⟩
      intro th3 h3' hcode
      rw [hA'] at h3'
      exact h3 th3 (((Option.some.inj h3').symm) ▸ hA) hcode
  | some c =>
      have hA2 : (s.threads.set t th2 ++ [c])[1]? = some thA := by
        rw [List.getElem?_append_left (by rw [List.length_set]; omega)]
        exact hA'
      refine ⟨?_, ⟨thA, hA2, hAmem⟩, ?_⟩
      · intro j hj tj htj
        rw [getElem?_append_single] at htj
        split at htj
        · exact hother j hj tj htj
        · split at htj
          · exact (Option.some.inj htj) ▸ hsp c rfl
          · cases htj
      · intro th3 h3' hcode
        rw [hA2] at h3'
        exact h3 th3 (((Option.some.inj h3').symm) ▸ hA) hcode

/-- `C8Inv` is preserved by every step of every thread. -/
theorem c8Inv_step (n : Nat) (s : Sys) (t : TId) (h : C8Inv n s) :
    C8Inv n (step s t) := by
  obtain ⟨h1, ⟨thA, hA, hAmem⟩, h3⟩ := h
  have horig : C8Inv n s := ⟨h1, ⟨thA, hA, hAmem⟩, h3⟩
  cases hget : s.threads[t]? with
  | none => simpa [step, hget] using horig
  | some th =>
      have hstep : step s t = stepThread s t th := by simp [step, hget]
      rw [hstep]
      by_cases ht1 : t = 1
      · subst ht1
        have hthA : th.code ∈ codeSuffixes (runnerCode n) := by
          rw [hget] at hA
          rw [Option.some.inj hA]
          exact hAmem
        cases hc : th.code with
        | nil => simpa [stepThread, hc] using horig
        | idleLoop =>
            rw [hc] at hthA
            exact absurd hthA
              (by simpa [runnerCode] using ofList_no_idleLoop (runPreparedList 0 n))
        | cons i k =>
            rw [hc] at hthA
            have htail : k ∈ codeSuffixes (runnerCode n) := codeSuffixes_tail hthA
            have hkres : ∀ b : Bool, i ≠ Instr.clearStop → (k = resumeTail → b = false) :=
              fun b hne hk => absurd (suffix_resume_clearStop n i k hthA hk) hne
            cases i with
            | acquire =>
                simp only [stepThread, hc]
                split
                · exact c8Inv_update n s th { th with code := k } hget h1 htail
                    s.stop (some 1) s.events (hkres s.stop (by simp)) none
                    (fun c0 hc0 => nomatch hc0)
                · exact horig
            | release =>
                simp only [stepThread, hc]
                exact c8Inv_update n s th { th with code := k } hget h1 htail
                  s.stop none s.events (hkres s.stop (by simp)) none
                  (fun c0 hc0 => nomatch hc0)
            | setStop =>
                simp only [stepThread, hc]
                exact c8Inv_update n s th { th with code := k } hget h1 htail
                  true s.lockHolder s.events (hkres true (by simp)) none
                  (fun c0 hc0 => nomatch hc0)
            | clearStop =>
                simp only [stepThread, hc]
                exact c8Inv_update n s th { th with code := k } hget h1 htail
                  false s.lockHolder s.events (fun _ => rfl) none
                  (fun c0 hc0 => nomatch hc0)
            | joinIfAlive hdl =>
                simp only [stepThread, hc]
                split
                · exact horig
                · exact c8Inv_update n s th { th with code := k } hget h1 htail
                    s.stop s.lockHolder s.events (hkres s.stop (by simp)) none
                    (fun c0 hc0 => nomatch hc0)
            | newEvent =>
                simp only [stepThread, hc]
                exact c8Inv_update n s th
                  { th with code := k, myEvent := some s.events.length } hget h1 htail
                  s.stop s.lockHolder (s.events ++ [false]) (hkres s.stop (by simp)) none
                  (fun c0 hc0 => nomatch hc0)
            | spawnAudio =>
                simp only [stepThread, hc]
                exact c8Inv_update n s th
                  { th with code := k, myAudio := some s.threads.length } hget h1 htail
                  s.stop s.lockHolder s.events (hkres s.stop (by simp))
                  (some { code := audioCode (th.myEvent.getD 0) })
                  (fun c0 hc0 => (Option.some.inj hc0) ▸ stopFreeC_audioCode _)
            | spawnData m =>
                simp only [stepThread, hc]
                exact c8Inv_update n s th
                  { th with code := k, myData := some s.threads.length } hget h1 htail
                  s.stop s.lockHolder s.events (hkres s.stop (by simp))
                  (some { code := dataCode (th.myEvent.getD 0) m })
                  (fun c0 hc0 => (Option.some.inj hc0) ▸ stopFreeC_dataCode _ _)
            | setEvent =>
                simp only [stepThread, hc]
                exact c8Inv_update n s th { th with code := k } hget h1 htail
                  s.stop s.lockHolder (s.events.set (th.myEvent.getD 0) true)
                  (hkres s.stop (by simp)) none (fun c0 hc0 => nomatch hc0)
            | joinAudio =>
                simp only [stepThread, hc]
                split
                · split
                  · exact horig
                  · exact c8Inv_update n s th { th with code := k } hget h1 htail
                      s.stop s.lockHolder s.events (hkres s.stop (by simp)) none
                      (fun c0 hc0 => nomatch hc0)
                · exact c8Inv_update n s th { th with code := k } hget h1 htail
                    s.stop s.lockHolder s.events (hkres s.stop (by simp)) none
                    (fun c0 hc0 => nomatch hc0)
            | joinData =>
                simp only [stepThread, hc]
                split
                · split
                  · exact horig
                  · exact c8Inv_update n s th { th with code := k } hget h1 htail
                      s.stop s.lockHolder s.events (hkres s.stop (by simp)) none
                      (fun c0 hc0 => nomatch hc0)
                · exact c8Inv_update n s th { th with code := k } hget h1 htail
                    s.stop s.lockHolder s.events (hkres s.stop (by simp)) none
                    (fun c0 hc0 => nomatch hc0)
            | spawnIdle =>
                simp only [stepThread, hc]
                exact c8Inv_update n s th
                  { th with code := k, localIdle := some s.threads.length } hget h1 htail
                  s.stop s.lockHolder s.events (hkres s.stop (by simp))
                  (some { code := Code.idleLoop })
                  (fun c0 hc0 => (Option.some.inj hc0) ▸ rfl)
            | waitEvent e =>
                simp only [stepThread, hc]
                split
                · exact c8Inv_update n s th { th with code := k } hget h1 htail
                    s.stop s.lockHolder s.events (hkres s.stop (by simp)) none
                    (fun c0 hc0 => nomatch hc0)
                · exact horig
            | beginWrite =>
                simp only [stepThread, hc]
                exact c8Inv_update n s th { th with code := k, writing := true } hget h1
                  htail s.stop s.lockHolder s.events (hkres s.stop (by simp)) none
                  (fun c0 hc0 => nomatch hc0)
            | endWrite =>
                simp only [stepThread, hc]
                exact c8Inv_update n s th { th with code := k, writing := false } hget h1
                  htail s.stop s.lockHolder s.events (hkres s.stop (by simp)) none
                  (fun c0 hc0 => nomatch hc0)
            | beginAudioOut =>
                simp only [stepThread, hc]
                exact c8Inv_update n s th { th with code := k, audioOut := true } hget h1
                  htail s.stop s.lockHolder s.events (hkres s.stop (by simp)) none
                  (fun c0 hc0 => nomatch hc0)
            | endAudioOut =>
                simp only [stepThread, hc]
                exact c8Inv_update n s th { th with code := k, audioOut := false } hget h1
                  htail s.stop s.lockHolder s.events (hkres s.stop (by simp)) none
                  (fun c0 hc0 => nomatch hc0)
      · have hsf : stopFreeC th.code = true := h1 t ht1 th hget
        cases hc : th.code with
        | nil => simpa [stepThread, hc] using horig
        | idleLoop =>
            simp only [stepThread, hc]
            split
            · exact c8Inv_update_other n s t ht1 { th with code := Code.nil } horig rfl
                s.lockHolder s.events none (fun c0 hc0 => nomatch hc0)
            · exact c8Inv_update_other n s t ht1
                { th with code := Code.cons .beginWrite (.cons .endWrite .idleLoop) }
                horig rfl s.lockHolder s.events none (fun c0 hc0 => nomatch hc0)
        | cons i k =>
            rw [hc] at hsf
            simp only [stopFreeC, Bool.and_eq_true, Bool.not_eq_true'] at hsf
            obtain ⟨⟨hns, hnc⟩, hkf⟩ := hsf
            cases i with
            | setStop => simp [isSetStop] at hns
            | clearStop => simp [isClearStop] at hnc
            | acquire =>
                simp only [stepThread, hc]
                split
                · exact c8Inv_update_other n s t ht1 { th with code := k } horig hkf
                    (some t) s.events none (fun c0 hc0 => nomatch hc0)
                · exact horig
            | release =>
                simp only [stepThread, hc]
                exact c8Inv_update_other n s t ht1 { th with code := k } horig hkf
                  none s.events none (fun c0 hc0 => nomatch hc0)
            | joinIfAlive hdl =>
                simp only [stepThread, hc]
                split
                · exact horig
                · exact c8Inv_update_other n s t ht1 { th with code := k } horig hkf
                    s.lockHolder s.events none (fun c0 hc0 => nomatch hc0)
            | newEvent =>
                simp only [stepThread, hc]
                exact c8Inv_update_other n s t ht1
                  { th with code := k, myEvent := some s.events.length } horig hkf
                  s.lockHolder (s.events ++ [false]) none (fun c0 hc0 => nomatch hc0)
            | spawnAudio =>
                simp only [stepThread, hc]
                exact c8Inv_update_other n s t ht1
                  { th with code := k, myAudio := some s.threads.length } horig hkf
                  s.lockHolder s.events (some { code := audioCode (th.myEvent.getD 0) })
                  (fun c0 hc0 => (Option.some.inj hc0) ▸ stopFreeC_audioCode _)
            | spawnData m =>
                simp only [stepThread, hc]
                exact c8Inv_update_other n s t ht1
                  { th with code := k, myData := some s.threads.length } horig hkf
                  s.lockHolder s.events (some { code := dataCode (th.myEvent.getD 0) m })
                  (fun c0 hc0 => (Option.some.inj hc0) ▸ stopFreeC_dataCode _ _)
            | setEvent =>
                simp only [stepThread, hc]
                exact c8Inv_update_other n s t ht1 { th with code := k } horig hkf
                  s.lockHolder (s.events.set (th.myEvent.getD 0) true) none
                  (fun c0 hc0 => nomatch hc0)
            | joinAudio =>
                simp only [stepThread, hc]
                split
                · split
                  · exact horig
                  · exact c8Inv_update_other n s t ht1 { th with code := k } horig hkf
                      s.lockHolder s.events none (fun c0 hc0 => nomatch hc0)
                · exact c8Inv_update_other n s t ht1 { th with code := k } horig hkf
                    s.lockHolder s.events none (fun c0 hc0 => nomatch hc0)
            | joinData =>
                simp only [stepThread, hc]
                split
                · split
                  · exact horig
                  · exact c8Inv_update_other n s t ht1 { th with code := k } horig hkf
                      s.lockHolder s.events none (fun c0 hc0 => nomatch hc0)
                · exact c8Inv_update_other n s t ht1 { th with code := k } horig hkf
                    s.lockHolder s.events none (fun c0 hc0 => nomatch hc0)
            | spawnIdle =>
                simp only [stepThread, hc]
                exact c8Inv_update_other n s t ht1
                  { th with code := k, localIdle := some s.threads.length } horig hkf
                  s.lockHolder s.events (some { code := Code.idleLoop })
                  (fun c0 hc0 => (Option.some.inj hc0) ▸ rfl)
            | waitEvent e =>
                simp only [stepThread, hc]
                split
                · exact c8Inv_update_other n s t ht1 { th with code := k } horig hkf
                    s.lockHolder s.events none (fun c0 hc0 => nomatch hc0)
                · exact horig
            | beginWrite =>
                simp only [stepThread, hc]
                exact c8Inv_update_other n s t ht1 { th with code := k, writing := true }
                  horig hkf s.lockHolder s.events none (fun c0 hc0 => nomatch hc0)
            | endWrite =>
                simp only [stepThread, hc]
                exact c8Inv_update_other n s t ht1 { th with code := k, writing := false }
                  horig hkf s.lockHolder s.events none (fun c0 hc0 => nomatch hc0)
            | beginAudioOut =>
                simp only [stepThread, hc]
                exact c8Inv_update_other n s t ht1 { th with code := k, audioOut := true }
                  horig hkf s.lockHolder s.events none (fun c0 hc0 => nomatch hc0)
            | endAudioOut =>
                simp only [stepThread, hc]
                exact c8Inv_update_other n s t ht1 { th with code := k, audioOut := false }
                  horig hkf s.lockHolder s.events none (fun c0 hc0 => nomatch hc0)

/-- `C8Inv` holds along every schedule. -/
theorem c8Inv_run (n : Nat) (s : Sys) (sched : List TId) (h : C8Inv n s) :
    C8Inv n (run s sched) := by
  induction sched generalizing s with
  | nil => exact h
  | cons t sched ih => exact ih (step s t) (c8Inv_step n s t h)

/-- `C8Inv` holds initially. -/
theorem c8Inv_init (n : Nat) : C8Inv n (initOneCall n) := by
  refine ⟨?_, ⟨runnerThread (runPreparedList 0 n), by simp [initOneCall], ?_⟩, ?_⟩
  · intro j hj tj htj
    match j, htj with
    | 0, htj =>
        have : idleThread = tj := by simpa [initOneCall] using htj
        rw [← this]
        rfl
    | 1, htj => exact absurd rfl hj
    | (j + 2), htj => simp [initOneCall] at htj
  · exact codeSuffixes_self _
  · intro th h3 hcode
    rfl

/-- C8: every idle-loop lifecycle transition is bracketed by the guard.
Structurally, in both `run_prepared_animation` and `run_audio_animation` the
stop-raise, the join of the old idle thread, the stop-clear and the spawn of
the new idle thread all occur at positive lock depth (`guardCheck`), and the
unique `clearStop` comes strictly after every session-unit join and strictly
before the unique `spawnIdle`.  Semantically, over EVERY schedule of the
single-invocation system, whenever the runner stands at the control point
that spawns the resumed idle loop, the stop flag is cleared — so each
resumed idle run begins with a cleared stop signal. -/
theorem c8_guard_brackets_idle_lifecycle :
    (∀ hdl n : Nat, guardCheck (runPreparedList hdl n) 0 = true
      ∧ guardCheck (runAudioList hdl n) 0 = true
      ∧ (runPreparedList hdl n).findIdx? isJoinData = some 7
      ∧ (runPreparedList hdl n).findIdx? isClearStop = some 9
      ∧ (runPreparedList hdl n).findIdx? isSpawnIdle = some 10
      ∧ (runPreparedList hdl n).countP isClearStop = 1
      ∧ (runPreparedList hdl n).countP isSpawnIdle = 1
      ∧ (runAudioList hdl n).findIdx? isJoinAudio = some 8
      ∧ (runAudioList hdl n).findIdx? isJoinData = some 9
      ∧ (runAudioList hdl n).findIdx? isClearStop = some 11
      ∧ (runAudioList hdl n).findIdx? isSpawnIdle = some 12
      ∧ (runAudioList hdl n).countP isClearStop = 1
      ∧ (runAudioList hdl n).countP isSpawnIdle = 1)
    ∧ (∀ (n : Nat) (sched : List TId) (th : ThreadC),
        (run (initOneCall n) sched).threads[1]? = some th →
        th.code = resumeTail →
        (run (initOneCall n) sched).stop = false) := by
  refine ⟨fun hdl n =>
    ⟨rfl, rfl, rfl, rfl, rfl, rfl, rfl, rfl, rfl, rfl, rfl, rfl, rfl⟩, ?_⟩
  intro n sched th h1 h2
  exact (c8Inv_run n (initOneCall n) sched (c8Inv_init n)).2.2 th h1 h2

/-- Witness for C8: after `schedResume` the runner stands exactly at
`resumeTail` and the stop flag is indeed cleared. -/
theorem c8_guard_brackets_idle_lifecycle_witness :
    (run (initOneCall 1) schedResume).threads[1]?
      = some { code := resumeTail, myEvent := some 0, myData := some 2 }
    ∧ (run (initOneCall 1) schedResume).stop = false :=
  ⟨rfl, c8_guard_brackets_idle_lifecycle.2 1 schedResume
    { code := resumeTail, myEvent := some 0, myData := some 2 } rfl rfl⟩

/-- Witness for C9 at a concrete store holding the idle-loop context. -/
theorem c9_fresh_encoding_context_witness :
    (0 : Nat) < ([7] : CtxStore).length
    ∧ ((prepare_facial_data_for_animation (some [List.replicate 62 (0 : ℚ)]) none [7]).2[0]?
          = ([7] : CtxStore)[0]?
      ∧ (prepare_facial_data_for_animation (some [List.replicate 62 (0 : ℚ)]) none
            (([7] : CtxStore).set 0 9)).1
          = (prepare_facial_data_for_animation (some [List.replicate 62 (0 : ℚ)]) none [7]).1
      ∧ (initialize_py_face [7]).1 ≠ 0) :=
  ⟨by decide,
   c9_fresh_encoding_context (some [List.replicate 62 (0 : ℚ)]) none [7] 0 9 (by decide)⟩

end NeuroSync
